import Mathlib

/-!
# Verification of the poverty/millionaire dashboard data pipeline (`app6.py`)

Shallow embedding of the tabular pipeline of `app6.py`:

* numeric coercion and row dropping (lines 85–89),
* derived ratio columns `Millionaire_Density` and `Poverty_Rate` (lines 92–93),
* the `STATE_ABBREV` lookup table and the geo join `df_map` (lines 98–116),
* the per-state comparison aggregation `grouped` (lines 145–148),
* the map-view empty check (lines 190–194),
* the ranked poverty-rate table `rate_df` (lines 257–258).

Numeric cell values are modelled by rationals.  The derived ratio columns are
produced by float division, which on a zero denominator yields `inf`, `-inf`
or `NaN`; those outcomes are modelled exactly by the type `EVal` below, with
`EVal.div` mirroring IEEE division of a finite numerator by a (possibly zero)
finite denominator.  `pandas.dropna` removes `NaN` but not `±inf`, and
`sort_values` orders `-inf` below every finite value and `inf` above; `EVal`'s
order `EVal.leB` mirrors that (`nan` is placed greatest, which is irrelevant
because every sort in the pipeline runs after a `dropna`).
-/

/-- Value of a derived ratio cell: a finite rational, `inf`, `-inf`, or `NaN`.
This is the exact range of outcomes of pandas float division of finite
operands. -/
inductive EVal where
  | fin (q : ℚ)
  | pinf
  | ninf
  | nan
deriving DecidableEq, Repr

/-- Float division of finite values, as performed at `app6.py` lines 92–93:
`x / 0` is `NaN` when `x = 0`, `inf` when `x > 0`, `-inf` when `x < 0`;
otherwise the exact quotient `a / b`.  The quotient is written via
`Rat.divInt` so that it evaluates by kernel reduction; `EVal.div_fin` below
proves it equal to the rational division `a / b`. -/
def EVal.div (a b : ℚ) : EVal :=
  if b = 0 then
    if a = 0 then EVal.nan
    else if 0 < a then EVal.pinf
    else EVal.ninf
  else EVal.fin (Rat.divInt (a.num * b.den) (a.den * b.num))

/-- For a nonzero denominator, `EVal.div a b` is the exact quotient `a / b`. -/
lemma EVal.div_fin {a b : ℚ} (h : b ≠ 0) : EVal.div a b = EVal.fin (a / b) := by
  unfold EVal.div
  rw [if_neg h, Rat.div_def']

/-- The comparison used by `sort_values` on a ratio column:
`-inf <` finite values `< inf`; `NaN` is placed greatest (it never reaches a
sort in this pipeline, every sort follows a `dropna`). -/
def EVal.leB : EVal → EVal → Bool
  | EVal.ninf, EVal.ninf => true
  | EVal.ninf, EVal.fin _ => true
  | EVal.ninf, EVal.pinf => true
  | EVal.ninf, EVal.nan => true
  | EVal.fin _, EVal.ninf => false
  | EVal.fin a, EVal.fin b => decide (a ≤ b)
  | EVal.fin _, EVal.pinf => true
  | EVal.fin _, EVal.nan => true
  | EVal.pinf, EVal.ninf => false
  | EVal.pinf, EVal.fin _ => false
  | EVal.pinf, EVal.pinf => true
  | EVal.pinf, EVal.nan => true
  | EVal.nan, EVal.ninf => false
  | EVal.nan, EVal.fin _ => false
  | EVal.nan, EVal.pinf => false
  | EVal.nan, EVal.nan => true

/-- A raw cell of the state-name column: present text or missing. -/
inductive StrCell where
  | missing
  | val (s : String)
deriving DecidableEq, Repr

/-- A raw cell of a numeric column, abstracted by what
`pd.to_numeric(..., errors="coerce")` does with it: a value it coerces to a
number, a value it cannot coerce (which becomes `NaN`), or an already-missing
cell. -/
inductive NumCell where
  | missing
  | num (q : ℚ)
  | nonNumeric
deriving DecidableEq, Repr

/-- A raw row, already projected through the sidebar field mapping
(`app6.py` lines 54–76): the mapping is a pure selection of four columns, so
only the four mapped cells are relevant to the pipeline. -/
structure RawRow where
  state : StrCell
  pop : NumCell
  pov : NumCell
  mil : NumCell
deriving DecidableEq, Repr

/-- A row of the Cleaned Table `df_clean`: the four mapped values plus the two
derived ratio columns added at lines 92–93. -/
structure CleanedRow where
  state : String
  pop : ℚ
  pov : ℚ
  mil : ℚ
  density : EVal
  rate : EVal
deriving DecidableEq, Repr

/-- `pd.to_numeric(cell, errors="coerce")`: `none` stands for `NaN`. -/
def coerce : NumCell → Option ℚ
  | NumCell.num q => some q
  | NumCell.missing => none
  | NumCell.nonNumeric => none

/-- One row through lines 85–93: coerce the three numeric cells, drop the row
if the state cell or any coerced numeric cell is missing
(`dropna(subset=[state_col, population_col, poverty_col, millionaire_col])`),
then compute `Millionaire_Density` and `Poverty_Rate` by float division. -/
def cleanRow (r : RawRow) : Option CleanedRow :=
  match r.state, coerce r.pop, coerce r.pov, coerce r.mil with
  | StrCell.val s, some p, some v, some m =>
      some ⟨s, p, v, m, EVal.div m p, EVal.div v p⟩
  | _, _, _, _ => none

/-- The Cleaned Table (`df_clean`, lines 85–93). -/
def df_clean (t : List RawRow) : List CleanedRow :=
  t.filterMap cleanRow

/-- The `STATE_ABBREV` dictionary of `app6.py` lines 98–113, in source order. -/
def STATE_ABBREV : List (String × String) :=
  [("Alabama", "AL"), ("Alaska", "AK"), ("Arizona", "AZ"), ("Arkansas", "AR"),
   ("California", "CA"), ("Colorado", "CO"), ("Connecticut", "CT"), ("Delaware", "DE"),
   ("Florida", "FL"), ("Georgia", "GA"), ("Hawaii", "HI"), ("Idaho", "ID"),
   ("Illinois", "IL"), ("Indiana", "IN"), ("Iowa", "IA"), ("Kansas", "KS"),
   ("Kentucky", "KY"), ("Louisiana", "LA"), ("Maine", "ME"), ("Maryland", "MD"),
   ("Massachusetts", "MA"), ("Michigan", "MI"), ("Minnesota", "MN"), ("Mississippi", "MS"),
   ("Missouri", "MO"), ("Montana", "MT"), ("Nebraska", "NE"), ("Nevada", "NV"),
   ("New Hampshire", "NH"), ("New Jersey", "NJ"), ("New Mexico", "NM"), ("New York", "NY"),
   ("North Carolina", "NC"), ("North Dakota", "ND"), ("Ohio", "OH"), ("Oklahoma", "OK"),
   ("Oregon", "OR"), ("Pennsylvania", "PA"), ("Rhode Island", "RI"),
   ("South Carolina", "SC"), ("South Dakota", "SD"), ("Tennessee", "TN"), ("Texas", "TX"),
   ("Utah", "UT"), ("Vermont", "VT"), ("Virginia", "VA"), ("Washington", "WA"),
   ("West Virginia", "WV"), ("Wisconsin", "WI"), ("Wyoming", "WY"),
   ("District of Columbia", "DC"), ("D.C.", "DC")]

/-- A row of the Mapped-Geo Table: a Cleaned Table row together with its
resolved `state_code` column. -/
structure GeoRow where
  row : CleanedRow
  state_code : String
deriving DecidableEq, Repr

/-- The Mapped-Geo Table (`df_map`, lines 115–116):
`df_clean[state_col].map(STATE_ABBREV)` is an exact, case-sensitive dictionary
lookup leaving `NaN` where the name is unknown, and `dropna(subset=["state_code"])`
then removes exactly those rows. -/
def df_map (t : List CleanedRow) : List GeoRow :=
  t.filterMap (fun r => (STATE_ABBREV.lookup r.state).map (fun c => GeoRow.mk r c))

/-- Stable insertion step of `sortBy`: `x` is placed before the first element
`y` it may precede (`le x y`), so equal keys keep their original order. -/
def insertBy (le : α → α → Bool) (x : α) : List α → List α
  | [] => [x]
  | y :: ys => if le x y then x :: y :: ys else y :: insertBy le x ys

/-- Stable sort with respect to the comparison `le`, modelling
`pandas.sort_values` (whose tie order on this pipeline's data is the stable,
first-appearance order). -/
def sortBy (le : α → α → Bool) : List α → List α
  | [] => []
  | x :: xs => insertBy le x (sortBy le xs)

/-- `drop_duplicates()`: keep the first occurrence of each distinct row. -/
def dedupFirst [DecidableEq α] : List α → List α
  | [] => []
  | x :: xs => x :: (dedupFirst xs).filter (fun y => decide (y ≠ x))

/-- The two-column frame `df_clean[[state_col, "Poverty_Rate"]].dropna()` of
line 257: the state column is never null after cleaning, so `dropna` removes
exactly the rows whose `Poverty_Rate` is `NaN`. -/
def povertyPairs (t : List CleanedRow) : List (String × EVal) :=
  (t.map (fun r => (r.state, r.rate))).filter (fun p => decide (p.2 ≠ EVal.nan))

/-- Comparison on (state, rate) pairs used by
`sort_values("Poverty_Rate", ascending=False)`: `a` may precede `b` iff `b`'s
rate is at most `a`'s. -/
def rateDescLe (a b : String × EVal) : Bool :=
  EVal.leB b.2 a.2

/-- The ranked poverty-rate table (`rate_df`, lines 257–258). -/
def rate_df (t : List CleanedRow) : List (String × EVal) :=
  sortBy rateDescLe (dedupFirst (povertyPairs t))

/-- `df_clean[df_clean[state_col].isin(selected_states)]` (line 145). -/
def subsetT (sel : List String) (t : List CleanedRow) : List CleanedRow :=
  t.filter (fun r => sel.contains r.state)

/-- String comparison used for group keys: pandas `groupby(..., sort=True)`
orders the groups by key, ascending. -/
def strLe (a b : String) : Bool :=
  decide (a ≤ b)

/-- `subset.groupby(state_col)[[poverty_col, millionaire_col]].sum()`
(line 148): one output row per distinct state of the filtered subset, keys in
ascending order, each carrying the sums of the poverty and millionaire
columns over the subset rows of that state. -/
def grouped (sel : List String) (t : List CleanedRow) : List (String × ℚ × ℚ) :=
  (sortBy strLe (dedupFirst ((subsetT sel t).map (fun r => r.state)))).map
    (fun s =>
      (s,
       (((subsetT sel t).filter (fun r => r.state == s)).map (fun r => r.pov)).sum,
       (((subsetT sel t).filter (fun r => r.state == s)).map (fun r => r.mil)).sum))

/-- What the map tab renders. -/
inductive MapView where
  | noValidStates
  | choropleth (rows : List GeoRow)
deriving DecidableEq, Repr

/-- The branch taken by the map tab (lines 190–219): the warning when
`df_map.empty`, otherwise the choropleth built from `df_map`. -/
def renderMap (t : List CleanedRow) : MapView :=
  if (df_map t).isEmpty then MapView.noValidStates
  else MapView.choropleth (df_map t)

/-- Re-embedding of a cleaned row as a raw row: this is how `df_clean` itself
looks to a second run of lines 85–93 (the mapped cells are present numbers;
the derived columns are recomputed, i.e. overwritten, by the second run). -/
def rawOfCleaned (r : CleanedRow) : RawRow :=
  ⟨StrCell.val r.state, NumCell.num r.pop, NumCell.num r.pov, NumCell.num r.mil⟩

/-! ## Order lemmas for `EVal.leB` -/

lemma EVal.leB_refl (a : EVal) : EVal.leB a a = true := by
  cases a <;> simp [EVal.leB]

lemma EVal.leB_total (a b : EVal) (h : EVal.leB a b = false) : EVal.leB b a = true := by
  cases a <;> cases b <;> simp_all [EVal.leB]
  exact le_of_lt h

lemma EVal.leB_trans {a b c : EVal} (h1 : EVal.leB a b = true)
    (h2 : EVal.leB b c = true) : EVal.leB a c = true := by
  cases a <;> cases b <;> cases c <;> simp_all [EVal.leB]
  exact le_trans h1 h2

/-! ## Permutation and sortedness of `sortBy` -/

lemma perm_insertBy (le : α → α → Bool) (x : α) (l : List α) :
    List.Perm (insertBy le x l) (x :: l) := by
  induction l with
  | nil => exact List.Perm.refl _
  | cons y ys ih =>
      by_cases h : le x y = true
      · simp only [insertBy, h, if_true]
        exact List.Perm.refl _
      · simp only [insertBy, if_neg h]
        exact (ih.cons y).trans (List.Perm.swap x y ys)

lemma perm_sortBy (le : α → α → Bool) (l : List α) : List.Perm (sortBy le l) l := by
  induction l with
  | nil => exact List.Perm.refl _
  | cons x xs ih => exact (perm_insertBy le x (sortBy le xs)).trans (ih.cons x)

lemma sorted_insertBy (le : α → α → Bool)
    (htot : ∀ a b, le a b = false → le b a = true)
    (htrans : ∀ a b c, le a b = true → le b c = true → le a c = true)
    (x : α) {l : List α} (hl : l.Pairwise (fun a b => le a b = true)) :
    (insertBy le x l).Pairwise (fun a b => le a b = true) := by
  induction l with
  | nil => simp [insertBy]
  | cons y ys ih =>
      rcases List.pairwise_cons.mp hl with ⟨hy, hys⟩
      by_cases h : le x y = true
      · simp only [insertBy, h, if_true]
        refine List.pairwise_cons.mpr ⟨?_, hl⟩
        intro z hz
        rcases List.mem_cons.mp hz with rfl | hz
        · exact h
        · exact htrans x y z h (hy z hz)
      · simp only [insertBy, if_neg h]
        refine List.pairwise_cons.mpr ⟨?_, ih hys⟩
        intro z hz
        have hz' : z = x ∨ z ∈ ys := by
          have := (perm_insertBy le x ys).mem_iff.mp hz
          simpa using this
        rcases hz' with rfl | hz'
        · exact htot z y (Bool.eq_false_iff.mpr h)
        · exact hy z hz'

lemma sorted_sortBy (le : α → α → Bool)
    (htot : ∀ a b, le a b = false → le b a = true)
    (htrans : ∀ a b c, le a b = true → le b c = true → le a c = true)
    (l : List α) : (sortBy le l).Pairwise (fun a b => le a b = true) := by
  induction l with
  | nil => simp [sortBy]
  | cons x xs ih => exact sorted_insertBy le htot htrans x ih

/-! ## Stability of the descending rate sort -/

lemma filter_rate_insertBy (v : EVal) (x : String × EVal) (l : List (String × EVal)) :
    (insertBy rateDescLe x l).filter (fun p => decide (p.2 = v)) =
      if x.2 = v then x :: l.filter (fun p => decide (p.2 = v))
      else l.filter (fun p => decide (p.2 = v)) := by
  induction l with
  | nil => by_cases hv : x.2 = v <;> simp [insertBy, hv]
  | cons y ys ih =>
      by_cases h : rateDescLe x y = true
      · by_cases hv : x.2 = v <;>
          simp [insertBy, h, hv, List.filter_cons]
      · have hyx : y.2 ≠ x.2 := by
          intro he
          exact h (by simp [rateDescLe, he, EVal.leB_refl])
        simp only [insertBy, if_neg h, List.filter_cons]
        by_cases hyv : y.2 = v
        · have hxv : ¬ x.2 = v := fun he => hyx (hyv.trans he.symm)
          simp [hyv, hxv, ih, List.filter_cons]
        · by_cases hxv : x.2 = v <;> simp [hyv, hxv, ih, List.filter_cons]

lemma filter_rate_sortBy (v : EVal) (l : List (String × EVal)) :
    (sortBy rateDescLe l).filter (fun p => decide (p.2 = v)) =
      l.filter (fun p => decide (p.2 = v)) := by
  induction l with
  | nil => rfl
  | cons x xs ih =>
      rw [sortBy, filter_rate_insertBy]
      by_cases hv : x.2 = v <;> simp [hv, ih, List.filter_cons]

/-! ## `dedupFirst` -/

lemma mem_dedupFirst [DecidableEq α] {x : α} {l : List α} :
    x ∈ dedupFirst l ↔ x ∈ l := by
  induction l with
  | nil => simp [dedupFirst]
  | cons y ys ih =>
      simp only [dedupFirst, List.mem_cons, List.mem_filter, ih,
        decide_eq_true_eq]
      by_cases hxy : x = y <;> simp [hxy]

lemma nodup_dedupFirst [DecidableEq α] (l : List α) : (dedupFirst l).Nodup := by
  induction l with
  | nil => simp [dedupFirst]
  | cons y ys ih =>
      refine List.Pairwise.cons ?_ (ih.filter _)
      intro z hz
      have hzy := (List.mem_filter.mp hz).2
      simp only [decide_eq_true_eq] at hzy
      exact fun he => hzy he.symm

/-! ## Facts about the cleaning stage -/

lemma cleanRow_some {a : RawRow} {r : CleanedRow} (h : cleanRow a = some r) :
    r.density = EVal.div r.mil r.pop ∧ r.rate = EVal.div r.pov r.pop := by
  unfold cleanRow at h
  rcases a with ⟨s, pc, vc, mc⟩
  cases s <;> cases pc <;> cases vc <;> cases mc <;> simp [coerce] at h
  subst h
  exact ⟨rfl, rfl⟩

lemma df_clean_spec {t : List RawRow} {r : CleanedRow} (h : r ∈ df_clean t) :
    r.density = EVal.div r.mil r.pop ∧ r.rate = EVal.div r.pov r.pop := by
  rcases List.mem_filterMap.mp h with ⟨a, -, ha⟩
  exact cleanRow_some ha

lemma cleanRow_rawOfCleaned {a : RawRow} {r : CleanedRow} (h : cleanRow a = some r) :
    cleanRow (rawOfCleaned r) = some r := by
  have hspec := cleanRow_some h
  simp [cleanRow, rawOfCleaned, coerce, ← hspec.1, ← hspec.2]

lemma filterMap_id_of_mem {l : List α} (f : α → Option α) (h : ∀ a ∈ l, f a = some a) :
    l.filterMap f = l := by
  induction l with
  | nil => rfl
  | cons a as ih =>
      rw [List.filterMap_cons, h a (List.mem_cons_self a as),
        ih (fun b hb => h b (List.mem_cons_of_mem a hb))]

/-! ## Membership in the ranked table -/

lemma mem_rate_df {p : String × EVal} {t : List CleanedRow} :
    p ∈ rate_df t ↔ p ∈ t.map (fun r => (r.state, r.rate)) ∧ p.2 ≠ EVal.nan := by
  unfold rate_df
  rw [(perm_sortBy rateDescLe _).mem_iff, mem_dedupFirst]
  unfold povertyPairs
  simp [List.mem_filter]

/-! ## Facts about the comparison aggregation -/

lemma strLe_total (a b : String) (h : strLe a b = false) : strLe b a = true := by
  simp only [strLe, decide_eq_false_iff_not] at h
  simpa [strLe] using le_of_not_le h

lemma strLe_trans (a b c : String) (h1 : strLe a b = true) (h2 : strLe b c = true) :
    strLe a c = true := by
  simp only [strLe, decide_eq_true_eq] at *
  exact le_trans h1 h2

lemma grouped_map_fst (sel : List String) (t : List CleanedRow) :
    (grouped sel t).map Prod.fst =
      sortBy strLe (dedupFirst ((subsetT sel t).map (fun r => r.state))) := by
  unfold grouped
  rw [List.map_map]
  exact List.map_id _

lemma mem_grouped_keys {sel : List String} {t : List CleanedRow} {s : String} :
    s ∈ (grouped sel t).map Prod.fst ↔ s ∈ sel ∧ ∃ r ∈ t, r.state = s := by
  rw [grouped_map_fst, (perm_sortBy _ _).mem_iff, mem_dedupFirst]
  simp only [List.mem_map, subsetT, List.mem_filter]
  constructor
  · rintro ⟨r, ⟨hrt, hsel⟩, rfl⟩
    exact ⟨List.elem_iff.mp hsel, r, hrt, rfl⟩
  · rintro ⟨hsel, r, hrt, rfl⟩
    exact ⟨r, ⟨hrt, List.elem_iff.mpr hsel⟩, rfl⟩

lemma nodup_grouped_keys (sel : List String) (t : List CleanedRow) :
    ((grouped sel t).map Prod.fst).Nodup := by
  rw [grouped_map_fst]
  exact (perm_sortBy _ _).nodup_iff.mpr (nodup_dedupFirst _)

lemma sorted_grouped_keys (sel : List String) (t : List CleanedRow) :
    ((grouped sel t).map Prod.fst).Pairwise (fun a b => a < b) := by
  rw [grouped_map_fst]
  have hs := sorted_sortBy strLe strLe_total strLe_trans
    (dedupFirst ((subsetT sel t).map (fun r => r.state)))
  have hn : (sortBy strLe (dedupFirst ((subsetT sel t).map (fun r => r.state)))).Nodup :=
    (perm_sortBy _ _).nodup_iff.mpr (nodup_dedupFirst _)
  refine (hs.and hn).imp ?_
  rintro a b ⟨h1, h2⟩
  simp only [strLe, decide_eq_true_eq] at h1
  exact lt_of_le_of_ne h1 h2

lemma grouped_sums {sel : List String} {t : List CleanedRow} {e : String × ℚ × ℚ}
    (he : e ∈ grouped sel t) :
    e.2.1 = ((t.filter (fun r => r.state == e.1)).map (fun r => r.pov)).sum ∧
    e.2.2 = ((t.filter (fun r => r.state == e.1)).map (fun r => r.mil)).sum := by
  unfold grouped at he
  rcases List.mem_map.mp he with ⟨s, hs, rfl⟩
  have hsel : s ∈ sel := by
    have hmem := (perm_sortBy _ _).mem_iff.mp hs
    rw [mem_dedupFirst] at hmem
    rcases List.mem_map.mp hmem with ⟨r, hr, rfl⟩
    exact List.elem_iff.mp (List.mem_filter.mp hr).2
  have hfil : (subsetT sel t).filter (fun r => r.state == s) =
      t.filter (fun r => r.state == s) := by
    unfold subsetT
    rw [List.filter_filter]
    apply List.filter_congr
    intro r _
    by_cases hrs : r.state = s
    · simp [hrs, hsel]
    · simp [hrs]
  exact ⟨by simp [hfil], by simp [hfil]⟩

/-! ## Comparison lemmas for the descending rate sort -/

lemma rateDescLe_total (a b : String × EVal) (h : rateDescLe a b = false) :
    rateDescLe b a = true :=
  EVal.leB_total _ _ h

lemma rateDescLe_trans (a b c : String × EVal) (h1 : rateDescLe a b = true)
    (h2 : rateDescLe b c = true) : rateDescLe a c = true :=
  EVal.leB_trans h2 h1

/-! ## Concrete tables used by counterexamples and witnesses -/

/-- One row whose mapped population is 0 and poverty count is 5. -/
def zeroPopTable : List RawRow :=
  [⟨StrCell.val "Texas", NumCell.num 0, NumCell.num 5, NumCell.num 1⟩]

/-- The cleaned form of the single `zeroPopTable` row: both ratios are `inf`. -/
def texasZeroRow : CleanedRow := ⟨"Texas", 0, 5, 1, EVal.pinf, EVal.pinf⟩

/-- Two states tied at poverty rate 0.30, appearing in the order C, A. -/
def tieTable : List RawRow :=
  [⟨StrCell.val "C", NumCell.num 100, NumCell.num 30, NumCell.num 0⟩,
   ⟨StrCell.val "A", NumCell.num 100, NumCell.num 30, NumCell.num 0⟩]

/-- Four states with poverty rates 0.30, 0.10, 0.30, 0.05. -/
def rankExampleTable : List RawRow :=
  [⟨StrCell.val "A", NumCell.num 100, NumCell.num 30, NumCell.num 0⟩,
   ⟨StrCell.val "B", NumCell.num 100, NumCell.num 10, NumCell.num 0⟩,
   ⟨StrCell.val "C", NumCell.num 100, NumCell.num 30, NumCell.num 0⟩,
   ⟨StrCell.val "D", NumCell.num 100, NumCell.num 5, NumCell.num 0⟩]

/-- Two rows of state A: one with rate 0.10, one with population 0 and
poverty count 0, whose rate is therefore `NaN`. -/
def dupStateTable : List RawRow :=
  [⟨StrCell.val "A", NumCell.num 100, NumCell.num 10, NumCell.num 0⟩,
   ⟨StrCell.val "A", NumCell.num 0, NumCell.num 0, NumCell.num 0⟩]

/-- The cleaned first row of `dupStateTable`. -/
def dupARow1 : CleanedRow := ⟨"A", 100, 10, 0, EVal.div 0 100, EVal.div 10 100⟩

/-- The cleaned second row of `dupStateTable`: population 0, rate `NaN`. -/
def dupARow2 : CleanedRow := ⟨"A", 0, 0, 0, EVal.nan, EVal.nan⟩

/-- Two rows of state A with distinct finite poverty rates 0.10 and 0.30. -/
def dupFinTable : List RawRow :=
  [⟨StrCell.val "A", NumCell.num 100, NumCell.num 10, NumCell.num 0⟩,
   ⟨StrCell.val "A", NumCell.num 100, NumCell.num 30, NumCell.num 0⟩]

/-- The cleaned rows of `dupFinTable`. -/
def dupFinRow1 : CleanedRow := ⟨"A", 100, 10, 0, EVal.div 0 100, EVal.div 10 100⟩

def dupFinRow2 : CleanedRow := ⟨"A", 100, 30, 0, EVal.div 0 100, EVal.div 30 100⟩

/-- A cleaned row whose state name is a known key of `STATE_ABBREV`. -/
def caliRow : CleanedRow := ⟨"California", 10, 1, 2, EVal.div 2 10, EVal.div 1 10⟩

/-- A raw row whose poverty cell fails numeric coercion. -/
def badRow : RawRow :=
  ⟨StrCell.val "Guam", NumCell.num 5, NumCell.nonNumeric, NumCell.num 1⟩

/-- The condition under which lines 85–89 drop a raw row: the state cell is
missing, or one of the three mapped numeric cells is missing or fails
numeric coercion (`coerce` returns `none` exactly in those two cases). -/
def droppedRow (r : RawRow) : Prop :=
  r.state = StrCell.missing ∨ coerce r.pop = none ∨
    coerce r.pov = none ∨ coerce r.mil = none

/-! ## Claims -/

/-- C1 (counterexample): on the one-row table whose mapped population value is
0 and poverty count is 5, the ranked poverty-rate table still contains the row,
carrying the infinite ratio `inf`: `dropna` removes `NaN` but not `inf`, so the
row is not excluded as the claim states. -/
theorem c1_zero_population_row_present :
    ("Texas", EVal.pinf) ∈ rate_df (df_clean zeroPopTable) := by decide

/-- C1 (amended): a Cleaned Table row whose mapped population value is 0 is
absent from the ranked poverty-rate table only when its poverty count is also
0 (its rate is then `NaN` and `dropna` removes it); when its poverty count is
nonzero the row remains in the ranked table, carrying an infinite ratio. -/
theorem c1_zero_population_ranking (t : List RawRow) (r : CleanedRow)
    (hr : r ∈ df_clean t) (hp : r.pop = 0) :
    (r.pov = 0 → (r.state, r.rate) ∉ rate_df (df_clean t)) ∧
    (r.pov ≠ 0 → (r.rate = EVal.pinf ∨ r.rate = EVal.ninf) ∧
      (r.state, r.rate) ∈ rate_df (df_clean t)) := by
  have hrate := (df_clean_spec hr).2
  constructor
  · intro hv hmem
    have hnan : r.rate = EVal.nan := by
      rw [hrate, hp, hv]
      simp [EVal.div]
    exact (mem_rate_df.mp hmem).2 hnan
  · intro hv
    have hio : r.rate = EVal.pinf ∨ r.rate = EVal.ninf := by
      rw [hrate, hp]
      by_cases h0 : (0:ℚ) < r.pov
      · exact Or.inl (by simp [EVal.div, hv, h0])
      · exact Or.inr (by simp [EVal.div, hv, h0])
    refine ⟨hio, mem_rate_df.mpr ⟨List.mem_map.mpr ⟨r, hr, rfl⟩, ?_⟩⟩
    rcases hio with h | h <;> simp [h]

theorem c1_zero_population_ranking_witness :
    (texasZeroRow.pov = 0 →
      (texasZeroRow.state, texasZeroRow.rate) ∉ rate_df (df_clean zeroPopTable)) ∧
    (texasZeroRow.pov ≠ 0 →
      (texasZeroRow.rate = EVal.pinf ∨ texasZeroRow.rate = EVal.ninf) ∧
      (texasZeroRow.state, texasZeroRow.rate) ∈ rate_df (df_clean zeroPopTable)) :=
  c1_zero_population_ranking zeroPopTable texasZeroRow (by decide) (by decide)

/-- C2 (counterexample): two rows tied at rate 0.30 with state names C, A in
that input order come out of the ranking in the order C, A — `sort_values`
keeps the stable input order on ties, it does not break ties by state name
ascending as the claim states (that would give A, C). -/
theorem c2_tie_order_counterexample :
    (rate_df (df_clean tieTable)).map Prod.fst = ["C", "A"] ∧
    (rate_df (df_clean tieTable)).map Prod.fst ≠ ["A", "C"] := by
  constructor <;> decide

/-- C2 (amended): the ranking deduplicates rows by the (state, ratio) pair,
sorts descending by the ratio value, and keeps ties in their first-appearance
(stable) order rather than by state name ascending; on the four-row example
with rates 0.30, 0.10, 0.30, 0.05 for states A, B, C, D the output order is
A, C, B, D (as the claim predicts, since here the stable order coincides with
name order). -/
theorem c2_ranking_dedup_sort_stable :
    (∀ t : List CleanedRow,
      (rate_df t).Pairwise (fun a b => EVal.leB b.2 a.2 = true) ∧
      (rate_df t).Nodup ∧
      (∀ p : String × EVal,
        p ∈ rate_df t ↔ p ∈ t.map (fun r => (r.state, r.rate)) ∧ p.2 ≠ EVal.nan) ∧
      (∀ v : EVal, (rate_df t).filter (fun p => decide (p.2 = v)) =
        (dedupFirst (povertyPairs t)).filter (fun p => decide (p.2 = v)))) ∧
    (rate_df (df_clean rankExampleTable)).map Prod.fst = ["A", "C", "B", "D"] := by
  constructor
  · intro t
    refine ⟨?_, ?_, fun p => mem_rate_df, fun v => filter_rate_sortBy v _⟩
    · exact sorted_sortBy rateDescLe rateDescLe_total rateDescLe_trans
        (dedupFirst (povertyPairs t))
    · exact (perm_sortBy _ _).nodup_iff.mpr (nodup_dedupFirst _)
  · decide

/-- C3 (counterexample): the `STATE_ABBREV` table does not have 51 entries. -/
theorem c3_state_abbrev_not_51 : STATE_ABBREV.length ≠ 51 := by decide

/-- C3 (amended): the `STATE_ABBREV` table has exactly 52 entries with
pairwise-distinct keys: the 50 state names plus both "District of Columbia"
and the alias "D.C.", each mapping to "DC". -/
theorem c3_state_abbrev_52 :
    STATE_ABBREV.length = 52 ∧ (STATE_ABBREV.map Prod.fst).Nodup ∧
    STATE_ABBREV.lookup "District of Columbia" = some "DC" ∧
    STATE_ABBREV.lookup "D.C." = some "DC" := by
  refine ⟨by decide, by decide, by decide, by decide⟩

/-- C4: for every row of a cleaned table, if its state name is exactly
(case-sensitively) a key of `STATE_ABBREV` the row appears in the Mapped-Geo
Table paired with that key's postal code; if the lookup fails, no Mapped-Geo
row is built from it, while the row itself remains in the cleaned table
(the resolver never modifies `df_clean`). -/
theorem c4_geo_resolver (t : List CleanedRow) (r : CleanedRow) (hr : r ∈ t) :
    (∀ c, STATE_ABBREV.lookup r.state = some c → GeoRow.mk r c ∈ df_map t) ∧
    (STATE_ABBREV.lookup r.state = none →
      (∀ g ∈ df_map t, g.row ≠ r) ∧ r ∈ t) := by
  constructor
  · intro c hc
    exact List.mem_filterMap.mpr ⟨r, hr, by simp [hc]⟩
  · intro hn
    refine ⟨?_, hr⟩
    intro g hg he
    rcases List.mem_filterMap.mp hg with ⟨r', _, hmap⟩
    cases hl : STATE_ABBREV.lookup r'.state with
    | none => rw [hl] at hmap; simp at hmap
    | some c =>
        rw [hl] at hmap
        simp only [Option.map_some', Option.some.injEq] at hmap
        rw [← hmap] at he
        simp only [GeoRow.mk.injEq] at he
        rw [he] at hl
        rw [hn] at hl
        cases hl

theorem c4_geo_resolver_witness :
    (∀ c, STATE_ABBREV.lookup caliRow.state = some c →
      GeoRow.mk caliRow c ∈ df_map [caliRow]) ∧
    (STATE_ABBREV.lookup caliRow.state = none →
      (∀ g ∈ df_map [caliRow], g.row ≠ caliRow) ∧ caliRow ∈ [caliRow]) :=
  c4_geo_resolver [caliRow] caliRow (by decide)

/-- C5: for every non-empty selection of state names, the comparison
aggregation has exactly one output row per distinct selected state present in
the cleaned table (keys pairwise distinct, key present iff it is selected and
some cleaned row carries it), each output value is the sum of the
corresponding mapped column over all cleaned rows of that state, and the
computation is deterministic. -/
theorem c5_comparison_aggregation (sel : List String) (t : List CleanedRow)
    (hsel : sel ≠ []) :
    ((grouped sel t).map Prod.fst).Nodup ∧
    (∀ s, s ∈ (grouped sel t).map Prod.fst ↔ s ∈ sel ∧ ∃ r ∈ t, r.state = s) ∧
    (∀ e ∈ grouped sel t,
      e.2.1 = ((t.filter (fun r => r.state == e.1)).map (fun r => r.pov)).sum ∧
      e.2.2 = ((t.filter (fun r => r.state == e.1)).map (fun r => r.mil)).sum) ∧
    grouped sel t = grouped sel t :=
  ⟨nodup_grouped_keys sel t, fun _ => mem_grouped_keys,
    fun _ he => grouped_sums he, rfl⟩

theorem c5_comparison_aggregation_witness :
    ((grouped ["A"] (df_clean dupStateTable)).map Prod.fst).Nodup ∧
    (∀ s, s ∈ (grouped ["A"] (df_clean dupStateTable)).map Prod.fst ↔
      s ∈ ["A"] ∧ ∃ r ∈ df_clean dupStateTable, r.state = s) ∧
    (∀ e ∈ grouped ["A"] (df_clean dupStateTable),
      e.2.1 = (((df_clean dupStateTable).filter (fun r => r.state == e.1)).map
        (fun r => r.pov)).sum ∧
      e.2.2 = (((df_clean dupStateTable).filter (fun r => r.state == e.1)).map
        (fun r => r.mil)).sum) ∧
    grouped ["A"] (df_clean dupStateTable) = grouped ["A"] (df_clean dupStateTable) :=
  c5_comparison_aggregation ["A"] (df_clean dupStateTable) (by decide)

/-- C6: a raw row whose state cell is missing, or whose mapped population,
poverty, or millionaire cell is missing or fails numeric coercion, contributes
nothing to the Cleaned Table: deleting it from the input leaves `df_clean`
unchanged.  The stage is a total function — coercion failure is handled by row
exclusion, never by a fatal error. -/
theorem c6_bad_rows_excluded (xs ys : List RawRow) (r : RawRow)
    (h : droppedRow r) :
    df_clean (xs ++ r :: ys) = df_clean (xs ++ ys) := by
  have hr : cleanRow r = none := by
    rcases r with ⟨s, pc, vc, mc⟩
    cases s <;> cases pc <;> cases vc <;> cases mc <;>
      simp_all [droppedRow, coerce, cleanRow]
  unfold df_clean
  simp [List.filterMap_append, List.filterMap_cons, hr]

theorem c6_bad_rows_excluded_witness :
    df_clean ([] ++ badRow :: zeroPopTable) = df_clean ([] ++ zeroPopTable) :=
  c6_bad_rows_excluded [] zeroPopTable badRow (by simp [droppedRow, badRow, coerce])

/-- C7: the Cleaning & Derivation Stage is idempotent: running lines 85–93
again on its own output (whose mapped cells are all present numbers, and whose
derived columns are recomputed to the same values) returns the same table. -/
theorem c7_cleaning_idempotent (t : List RawRow) :
    df_clean ((df_clean t).map rawOfCleaned) = df_clean t := by
  unfold df_clean
  rw [List.filterMap_map]
  apply filterMap_id_of_mem
  intro r hr
  rcases List.mem_filterMap.mp hr with ⟨a, -, ha⟩
  exact cleanRow_rawOfCleaned ha

/-- C8: the map tab renders the "no valid states" warning exactly when the
Mapped-Geo Table is empty; equivalently, the choropleth branch is reached only
when `df_map` is non-empty. -/
theorem c8_map_view_empty_check (t : List CleanedRow) :
    renderMap t = MapView.noValidStates ↔ df_map t = [] := by
  unfold renderMap
  by_cases h : df_map t = []
  · simp [h]
  · simp [h, List.isEmpty_iff]

/-- C9: the comparison aggregation's output rows are ordered strictly
ascending by state name, as `groupby(..., sort=True)` sorts the group keys. -/
theorem c9_grouped_keys_sorted (sel : List String) (t : List CleanedRow) :
    ((grouped sel t).map Prod.fst).Pairwise (fun a b => a < b) :=
  sorted_grouped_keys sel t

/-- C10 (counterexample): two cleaned rows share the state name A and have
different poverty rates (0.10 and `NaN`, the latter from population 0 and
poverty count 0), yet the `NaN`-rated row does not appear in the ranked
output — `dropna` removes it before deduplication, so not every pair of
same-state different-rate rows yields two ranked entries. -/
theorem c10_nan_rate_row_counterexample :
    dupARow1 ∈ df_clean dupStateTable ∧ dupARow2 ∈ df_clean dupStateTable ∧
    dupARow1.state = dupARow2.state ∧ dupARow1.rate ≠ dupARow2.rate ∧
    (dupARow2.state, dupARow2.rate) ∉ rate_df (df_clean dupStateTable) := by
  decide

/-- C10 (amended): deduplication removes only rows agreeing on both the state
name and the poverty-rate value: two cleaned rows with the same state name and
different, defined (non-`NaN`) poverty rates both appear in the ranked output,
as distinct entries. -/
theorem c10_dedup_by_state_rate_pair (t : List RawRow) (r1 r2 : CleanedRow)
    (h1 : r1 ∈ df_clean t) (h2 : r2 ∈ df_clean t) (hst : r1.state = r2.state)
    (hne : r1.rate ≠ r2.rate) (hn1 : r1.rate ≠ EVal.nan)
    (hn2 : r2.rate ≠ EVal.nan) :
    (r1.state, r1.rate) ∈ rate_df (df_clean t) ∧
    (r2.state, r2.rate) ∈ rate_df (df_clean t) ∧
    (r1.state, r1.rate) ≠ (r2.state, r2.rate) := by
  refine ⟨mem_rate_df.mpr ⟨List.mem_map.mpr ⟨r1, h1, rfl⟩, hn1⟩,
    mem_rate_df.mpr ⟨List.mem_map.mpr ⟨r2, h2, rfl⟩, hn2⟩, fun he => ?_⟩
  exact hne (congrArg Prod.snd he)

theorem c10_dedup_by_state_rate_pair_witness :
    (dupFinRow1.state, dupFinRow1.rate) ∈ rate_df (df_clean dupFinTable) ∧
    (dupFinRow2.state, dupFinRow2.rate) ∈ rate_df (df_clean dupFinTable) ∧
    (dupFinRow1.state, dupFinRow1.rate) ≠ (dupFinRow2.state, dupFinRow2.rate) :=
  c10_dedup_by_state_rate_pair dupFinTable dupFinRow1 dupFinRow2
    (by decide) (by decide) (by decide) (by decide) (by decide) (by decide)
